import Mathlib

/-!
Verification of the Dinasours-server task-tracking service (FastAPI + SQLite).

The database state is modelled as three lists of rows (tables `tasks`,
`members`, `sessions` from `database.py`).  SQL statements are embedded as
list operations: a `SELECT ... WHERE p` with `fetchone` becomes `List.find?`,
a `DELETE ... WHERE p` becomes `List.filter` on the negated predicate with
`rowcount` the number of removed rows, an `UPDATE ... WHERE p` becomes
`List.map` guarded by the predicate, and `INSERT` appends.

Timestamps: the source stores ISO-8601 strings and compares them with SQL
`<`/`<=`/`>`, which on equal-format ISO strings is chronological order; we
model those instants as `Nat`.  The `time` field of a task is kept as the
raw string the client sent (it is only ever compared by `ORDER BY`, modelled
with the linear order on `String`).

Nondeterministic generation (the `uuid4` session/user ids and the `jwt`
token of `create_session`) is modelled by passing the generated values as
explicit parameters.
-/

/-- A row of the `sessions` table (`database.py`, `CREATE TABLE sessions`):
session id (primary key), owning user id, the verbatim stored bearer token
(UNIQUE), and the expiry instant.  The `created_at` column is never read by
the code and is omitted. -/
structure SessionRow where
  sessionId : String
  userId : String
  sessionToken : String
  expiresAt : Nat
deriving DecidableEq, Repr

/-- A row of the `members` table (`database.py`): user id (primary key),
email (UNIQUE), profile fields, and the plaintext password. -/
structure Member where
  userId : String
  email : String
  relationship : String
  nickname : String
  gender : String
  birthday : String
  password : String
deriving DecidableEq, Repr

/-- A row of the `tasks` table (`database.py`): auto-assigned task id
(primary key), owning user id, name, category, the client-supplied `time`
string, status, and `updated_at`.  The `created_at` column is never read by
the code and is omitted. -/
structure TaskRow where
  taskId : Nat
  userId : String
  taskName : String
  category : String
  time : String
  status : String
  updatedAt : String
deriving DecidableEq, Repr

/-- The whole persistent state: the three tables of `database.py`. -/
structure DB where
  tasks : List TaskRow
  members : List Member
  sessions : List SessionRow
deriving DecidableEq, Repr

/-- The `{sessionToken, expiresAt}` dictionary returned by
`TaskModel.create_session` (`models.py`). -/
structure SessionInfo where
  sessionToken : String
  expiresAt : Nat
deriving DecidableEq, Repr

namespace TaskModel

/-- `models.py` `validate_session` (lines 304-326): runs
`SELECT userId FROM sessions WHERE sessionToken = ? AND expiresAt > ?`
with the current time, returning the user id of the first matching row or
`None`. -/
def validate_session (sessions : List SessionRow) (session_token : String)
    (now : Nat) : Option String :=
  (sessions.find? fun r =>
    r.sessionToken == session_token && decide (now < r.expiresAt)).map
    (fun r => r.userId)

/-- `models.py` `create_session` (lines 259-302): deletes every session row
of `user_id` (`DELETE FROM sessions WHERE userId = ?`), then inserts the new
row `{session_id, user_id, session_token, expires_at}` and returns the
`{sessionToken, expiresAt}` info.  The generated uuid `session_id`, the jwt
`session_token` and the computed expiry are parameters (see module header). -/
def create_session (sessions : List SessionRow)
    (user_id session_id session_token : String) (expires_at : Nat) :
    List SessionRow × SessionInfo :=
  (sessions.filter (fun r => !(r.userId == user_id)) ++
      [⟨session_id, user_id, session_token, expires_at⟩],
   ⟨session_token, expires_at⟩)

/-- `models.py` `delete_session` (lines 328-343): deletes every session row
of `user_id` and returns whether `rowcount > 0`. -/
def delete_session (sessions : List SessionRow) (user_id : String) :
    List SessionRow × Bool :=
  (sessions.filter (fun r => !(r.userId == user_id)),
   sessions.any (fun r => r.userId == user_id))

/-- `models.py` `cleanup_expired_sessions` (lines 345-359): runs
`DELETE FROM sessions WHERE expiresAt <= ?` with the current time and
returns the `rowcount` of deleted rows. -/
def cleanup_expired_sessions (sessions : List SessionRow) (now : Nat) :
    List SessionRow × Nat :=
  (sessions.filter (fun r => !(decide (r.expiresAt ≤ now))),
   sessions.countP (fun r => decide (r.expiresAt ≤ now)))

/-- `models.py` `add_new_member` (lines 213-235): inserts the member row;
sqlite raises `IntegrityError` when the UNIQUE/PRIMARY KEY constraints on
`userId` or `email` are violated, which the method re-raises with a message
containing "email might already exist". -/
def add_new_member (members : List Member) (m : Member) :
    Except String (List Member) :=
  if members.any (fun x => x.userId == m.userId || x.email == m.email) then
    .error "Failed to create member - email might already exist: UNIQUE constraint failed"
  else
    .ok (members ++ [m])

/-- `models.py` `getUser` (lines 237-257): runs
`SELECT userId FROM members WHERE email = ? AND password = ?` and returns
the user id of the first matching row or `None` (plaintext comparison). -/
def getUser (members : List Member) (email password : String) :
    Option String :=
  (members.find? fun m => m.email == email && m.password == password).map
    (fun m => m.userId)

/-- `models.py` `get_task_by_id` (lines 31-47): runs
`SELECT ... FROM tasks WHERE taskId = ?` with `fetchone`. -/
def get_task_by_id (tasks : List TaskRow) (task_id : Nat) : Option TaskRow :=
  tasks.find? (fun r => r.taskId == task_id)

/-- `models.py` `update_task` (lines 49-69): runs
`UPDATE tasks SET userId = ?, taskName = ?, category = ?, time = ?,
status = ?, updated_at = ? WHERE taskId = ?`, commits, and returns whether
`rowcount` was nonzero. -/
def update_task (tasks : List TaskRow) (task_id : Nat)
    (user_id task_name category time status updated_at : String) :
    List TaskRow × Bool :=
  (tasks.map fun r =>
      if r.taskId == task_id then
        { r with userId := user_id, taskName := task_name,
                 category := category, time := time, status := status,
                 updatedAt := updated_at }
      else r,
   tasks.any (fun r => r.taskId == task_id))

/-- `models.py` `delete_task` (lines 71-87): runs
`DELETE FROM tasks WHERE taskId = ?`, commits, and returns whether
`rowcount` was nonzero. -/
def delete_task (tasks : List TaskRow) (task_id : Nat) :
    List TaskRow × Bool :=
  (tasks.filter (fun r => !(r.taskId == task_id)),
   tasks.any (fun r => r.taskId == task_id))

/-- `models.py` `get_all_tasks` (lines 89-103): runs
`SELECT ... FROM tasks ORDER BY time DESC` and returns every row.  The SQL
sort is modelled as a sort by the decidable total order `b.time ≤ a.time`
(sqlite guarantees no particular order among ties, and neither does a
sort). -/
def get_all_tasks (tasks : List TaskRow) : List TaskRow :=
  tasks.insertionSort (fun a b => b.time ≤ a.time)

end TaskModel

/-!
The `main.py` layer: the authorization dependency and the route handlers.
HTTP outcomes are explicit result values; each handler returns the new
database state together with its outcome, mirroring the committed side
effects of the Python code (sqlite commits happen inside the `TaskModel`
methods, before any later exception).
-/

/-- CPython `str.replace(old, new)` for a nonempty pattern: scans left to
right and replaces every non-overlapping occurrence of `pat` by `rep`
(used by `get_current_user`, `main.py` line 46).  When `pat` is empty the
scan is skipped (the code only ever calls it with `"Bearer "`). -/
def replaceAll (pat rep : List Char) : List Char → List Char
  | [] => []
  | c :: rest =>
    if h : pat ≠ [] ∧ pat.isPrefixOf (c :: rest) then
      rep ++ replaceAll pat rep ((c :: rest).drop pat.length)
    else
      c :: replaceAll pat rep rest
termination_by s => s.length
decreasing_by
  · have hp : 0 < pat.length := List.length_pos.mpr h.1
    simp only [List.length_drop, List.length_cons]
    omega
  · simp

/-- CPython `in` on strings: does `pat` occur as a contiguous substring? -/
def containsSub (pat : List Char) : List Char → Bool
  | [] => pat.isEmpty
  | c :: rest => pat.isPrefixOf (c :: rest) || containsSub pat rest

/-- The bearer scheme marker `"Bearer "` of `get_current_user`. -/
def bearerMarker : List Char := "Bearer ".toList

/-- The token extraction of `get_current_user` (`main.py` line 46):
`authorization.replace("Bearer ", "")`, i.e. deletion of every occurrence
of `"Bearer "` from the header value. -/
def extractToken (authorization : List Char) : List Char :=
  replaceAll bearerMarker [] authorization

/-- Outcome of the `get_current_user` dependency. -/
inductive AuthResult where
  | ok (userId : String)
  | unauthorized401
deriving DecidableEq, Repr

namespace Main

/-- `main.py` `get_current_user` (lines 41-60): rejects with 401 when the
header is absent, empty, or does not start with `"Bearer "`; otherwise
strips every `"Bearer "` occurrence from the header and looks the result up
with `TaskModel.validate_session`, rejecting with 401 on a `None` result. -/
def get_current_user (sessions : List SessionRow)
    (authorization : Option (List Char)) (now : Nat) : AuthResult :=
  match authorization with
  | none => .unauthorized401
  | some auth =>
    if !(bearerMarker.isPrefixOf auth) then .unauthorized401
    else
      match TaskModel.validate_session sessions
          (String.mk (extractToken auth)) now with
      | some uid => .ok uid
      | none => .unauthorized401

end Main

/-- Body of a `PUT /task` request (`schemas.py` `TaskUpdate`), after boundary
validation. -/
structure TaskUpdate where
  taskId : Nat
  taskName : String
  category : String
  time : String
  status : String
deriving DecidableEq, Repr

/-- Outcome of the `PUT /task` handler. -/
inductive UpdateOutcome where
  | ok200 (task : TaskRow)
  | notFound404
  | forbidden403
  | serverError500
deriving DecidableEq, Repr

/-- Outcome of the `DELETE /task/{task_id}` handler. -/
inductive DeleteOutcome where
  | ok200 (message : String)
  | notFound404
  | forbidden403
  | serverError500
deriving DecidableEq, Repr

namespace Main

/-- `main.py` `update_task` (lines 112-160): loads the task by id (404 when
absent), compares its stored `userId` with the authenticated user (403 on
mismatch), then runs `TaskModel.update_task` writing the authenticated
user's id, re-reads the row and returns it.  `current_user_id` is the
identity resolved by `get_current_user`; `now` is the `updated_at`
timestamp string. -/
def update_task (db : DB) (task : TaskUpdate) (current_user_id : String)
    (now : String) : DB × UpdateOutcome :=
  match TaskModel.get_task_by_id db.tasks task.taskId with
  | none => (db, .notFound404)
  | some existing_task =>
    if !(existing_task.userId == current_user_id) then (db, .forbidden403)
    else
      let res := TaskModel.update_task db.tasks task.taskId current_user_id
        task.taskName task.category task.time task.status now
      if res.2 then
        match TaskModel.get_task_by_id res.1 task.taskId with
        | some updated_task => ({ db with tasks := res.1 }, .ok200 updated_task)
        | none => ({ db with tasks := res.1 }, .serverError500)
      else ({ db with tasks := res.1 }, .serverError500)

/-- `main.py` `delete_task` (lines 162-192): loads the task by id (404 when
absent), compares its stored `userId` with the authenticated user (403 on
mismatch), then runs `TaskModel.delete_task`. -/
def delete_task (db : DB) (task_id : Nat) (current_user_id : String) :
    DB × DeleteOutcome :=
  match TaskModel.get_task_by_id db.tasks task_id with
  | none => (db, .notFound404)
  | some existing_task =>
    if !(existing_task.userId == current_user_id) then (db, .forbidden403)
    else
      let res := TaskModel.delete_task db.tasks task_id
      if res.2 then
        ({ db with tasks := res.1 },
         .ok200 s!"Task with ID {task_id} deleted successfully")
      else ({ db with tasks := res.1 }, .serverError500)

/-- `main.py` `get_all_tasks` (lines 194-219): for an authenticated caller,
returns every stored task in the order produced by
`TaskModel.get_all_tasks`. -/
def get_all_tasks (db : DB) : List TaskRow :=
  TaskModel.get_all_tasks db.tasks

end Main

/-- Response of `GET /session/validate`: HTTP status plus the JSON body
(`valid`, optional `userId`). -/
structure ValidateResponse where
  status : Nat
  valid : Bool
  userId : Option String
deriving DecidableEq, Repr

namespace Main

/-- `main.py` `validate_session` endpoint (lines 338-354): delegates to
`TaskModel.validate_session`; both the valid and the invalid case are
plain 200 responses (`{valid: true, userId}` or `{valid: false}`). -/
def validate_session (db : DB) (session_token : String) (now : Nat) :
    ValidateResponse :=
  match TaskModel.validate_session db.sessions session_token now with
  | some uid => ⟨200, true, some uid⟩
  | none => ⟨200, false, none⟩

end Main

/-!
Registration and login.  `schemas.py` declares the pydantic response models
`UserRegisterResponse` and `UserLoginResponse` with eight required fields
(`userId`, `email`, `relationship`, `gender`, `nickname`, `birthday`,
`message`, `session`); constructing a pydantic `BaseModel` with a required
field missing raises `ValidationError`.  The handlers in `main.py` construct
these responses passing only `userId`, `message` and `session`.  We model a
pydantic construction by the list of field names the handler supplies and a
check that every required field is among them.
-/

/-- Required fields of `schemas.py` `UserRegisterResponse`
(lines 232-241): every field is declared without a default, hence
required. -/
def userRegisterResponseFields : List String :=
  ["userId", "email", "relationship", "gender", "nickname", "birthday",
   "message", "session"]

/-- Required fields of `schemas.py` `UserLoginResponse` (lines 285-294). -/
def userLoginResponseFields : List String :=
  ["userId", "email", "relationship", "gender", "nickname", "birthday",
   "message", "session"]

/-- Keyword arguments passed by `main.py` `register_user` when constructing
`UserRegisterResponse` (lines 273-277): only `userId`, `message`,
`session`. -/
def registerResponseKwargs : List String := ["userId", "message", "session"]

/-- Keyword arguments passed by `main.py` `login_user` when constructing
`UserLoginResponse` (lines 302-306): only `userId`, `message`, `session`. -/
def loginResponseKwargs : List String := ["userId", "message", "session"]

/-- Pydantic model construction succeeds iff every required field is
supplied; otherwise `ValidationError` is raised. -/
def pydanticConstructOk (required supplied : List String) : Bool :=
  required.all (fun f => supplied.contains f)

/-- Body of a `POST /register` request (`schemas.py` `UserRegister`), after
boundary validation. -/
structure UserRegister where
  email : String
  relationship : String
  password : String
  gender : String
  nickname : String
  birthday : String
deriving DecidableEq, Repr

/-- Outcome of the `POST /register` handler. -/
inductive RegisterOutcome where
  | created201 (userId : String) (session : SessionInfo)
  | conflict409
  | serverError500
deriving DecidableEq, Repr

/-- Outcome of the `POST /login` handler. -/
inductive LoginOutcome where
  | ok200 (userId : String) (session : SessionInfo)
  | unauthorized401
  | serverError500
deriving DecidableEq, Repr

namespace Main

/-- `main.py` `register_user` (lines 255-285): inserts the member via
`TaskModel.add_new_member` (its `IntegrityError` message, containing
"email might already exist", is mapped to 409; any other exception text to
500), then creates a session (committed), then constructs
`UserRegisterResponse`; a pydantic `ValidationError` there is caught by the
generic `except` and, lacking the duplicate-email marker, becomes 500.
The generated user id, session id, token and expiry are parameters. -/
def register_user (db : DB) (user : UserRegister)
    (new_user_id new_session_id new_token : String) (expires_at : Nat) :
    DB × RegisterOutcome :=
  match TaskModel.add_new_member db.members
      ⟨new_user_id, user.email, user.relationship, user.nickname,
       user.gender, user.birthday, user.password⟩ with
  | .error msg =>
    if containsSub "email might already exist".toList msg.toList then
      (db, .conflict409)
    else (db, .serverError500)
  | .ok members2 =>
    let res := TaskModel.create_session db.sessions new_user_id
      new_session_id new_token expires_at
    let db2 : DB := { db with members := members2, sessions := res.1 }
    if pydanticConstructOk userRegisterResponseFields registerResponseKwargs then
      (db2, .created201 new_user_id res.2)
    else (db2, .serverError500)

/-- `main.py` `login_user` (lines 287-315): authenticates via
`TaskModel.getUser` (401 on `None`, no session created), otherwise creates a
session (committed) and constructs `UserLoginResponse`; a pydantic
`ValidationError` there is caught by the generic `except` and becomes 500. -/
def login_user (db : DB) (email password : String)
    (new_session_id new_token : String) (expires_at : Nat) :
    DB × LoginOutcome :=
  match TaskModel.getUser db.members email password with
  | none => (db, .unauthorized401)
  | some user_id =>
    let res := TaskModel.create_session db.sessions user_id
      new_session_id new_token expires_at
    let db2 : DB := { db with sessions := res.1 }
    if pydanticConstructOk userLoginResponseFields loginResponseKwargs then
      (db2, .ok200 user_id res.2)
    else (db2, .serverError500)

end Main

/-!
Schema constraints.  `database.py` declares `sessionToken TEXT UNIQUE` on
the `sessions` table; a store state respecting the schema has pairwise
distinct tokens.
-/

/-- The UNIQUE constraint on the `sessionToken` column
(`database.py`, `CREATE TABLE sessions`). -/
def TokensUnique (sessions : List SessionRow) : Prop :=
  sessions.Pairwise (fun a b => a.sessionToken ≠ b.sessionToken)

/-- Per-user session-count bound: at most one session row per user. -/
def AtMostOneSessionPerUser (sessions : List SessionRow) : Prop :=
  ∀ u : String, sessions.countP (fun r => r.userId == u) ≤ 1

/-- Two members of a list that is pairwise distinct under a key are equal
whenever their keys agree. -/
theorem eq_of_mem_of_key_eq {α β : Type} (key : α → β) {l : List α}
    (h : l.Pairwise (fun a b => key a ≠ key b)) {a b : α}
    (ha : a ∈ l) (hb : b ∈ l) (hk : key a = key b) : a = b := by
  induction l with
  | nil => cases ha
  | cons x xs ih =>
    rcases List.pairwise_cons.mp h with ⟨hx, hxs⟩
    rcases List.mem_cons.mp ha with rfl | ha2
    · rcases List.mem_cons.mp hb with rfl | hb2
      · rfl
      · exact absurd hk (hx _ hb2)
    · rcases List.mem_cons.mp hb with rfl | hb2
      · exact absurd hk.symm (hx _ ha2)
      · exact ih hxs ha2 hb2

/-- C1: for every token string and session-store state (with the schema's
UNIQUE `sessionToken` constraint), `validate_session` returns the owning
user id exactly when a row storing that very token exists with stored
expiry strictly later than the validation time; consequently a row whose
expiry has passed fails validation while still unswept, and deleting a
session's row (here via `delete_session` on its owner) makes its token
invalid at every later validation time, regardless of the token's embedded
expiry claim. -/
theorem validate_session_authoritative
    (sessions : List SessionRow) (t : String) (now : Nat)
    (hU : TokensUnique sessions) :
    (∀ u, TaskModel.validate_session sessions t now = some u ↔
      ∃ r ∈ sessions, r.sessionToken = t ∧ now < r.expiresAt ∧ r.userId = u) ∧
    (∀ r ∈ sessions, r.sessionToken = t → r.expiresAt ≤ now →
      TaskModel.validate_session sessions t now = none) ∧
    (∀ r ∈ sessions, r.sessionToken = t → ∀ now2 : Nat,
      TaskModel.validate_session
        (TaskModel.delete_session sessions r.userId).1 t now2 = none) := by
  have hU2 : sessions.Pairwise (fun a b => a.sessionToken ≠ b.sessionToken) := hU
  refine ⟨?_, ?_, ?_⟩
  · intro u
    constructor
    · intro h
      unfold TaskModel.validate_session at h
      cases hf : sessions.find? fun r =>
          r.sessionToken == t && decide (now < r.expiresAt) with
      | none => rw [hf] at h; simp at h
      | some r =>
        rw [hf] at h
        simp at h
        have hp := List.find?_some hf
        simp only [Bool.and_eq_true, beq_iff_eq, decide_eq_true_eq] at hp
        exact ⟨r, List.mem_of_find?_eq_some hf, hp.1, hp.2, h⟩
    · rintro ⟨r, hr, htok, hexpiry, huid⟩
      unfold TaskModel.validate_session
      have hsome : (sessions.find? fun x =>
          x.sessionToken == t && decide (now < x.expiresAt)).isSome :=
        List.find?_isSome.mpr ⟨r, hr, by simp [htok, hexpiry]⟩
      cases hf : sessions.find? fun x =>
          x.sessionToken == t && decide (now < x.expiresAt) with
      | none => rw [hf] at hsome; simp at hsome
      | some r2 =>
        have hp := List.find?_some hf
        simp only [Bool.and_eq_true, beq_iff_eq, decide_eq_true_eq] at hp
        have he : r2 = r :=
          eq_of_mem_of_key_eq (fun s => s.sessionToken) hU2
            (List.mem_of_find?_eq_some hf) hr (hp.1.trans htok.symm)
        simp [he, huid]
  · intro r hr htok hexpired
    unfold TaskModel.validate_session
    rw [List.find?_eq_none.mpr]
    · rfl
    · intro x hx hp
      simp only [Bool.and_eq_true, beq_iff_eq, decide_eq_true_eq] at hp
      have he : x = r :=
        eq_of_mem_of_key_eq (fun s => s.sessionToken) hU2 hx hr
          (hp.1.trans htok.symm)
      rw [he] at hp
      omega
  · intro r hr htok now2
    unfold TaskModel.validate_session TaskModel.delete_session
    rw [List.find?_eq_none.mpr]
    · rfl
    · intro x hx hp
      simp only [List.mem_filter, Bool.not_eq_eq_eq_not, Bool.not_true,
        beq_eq_false_iff_ne, ne_eq] at hx
      simp only [Bool.and_eq_true, beq_iff_eq, decide_eq_true_eq] at hp
      have he : x = r :=
        eq_of_mem_of_key_eq (fun s => s.sessionToken) hU2 hx.1 hr
          (hp.1.trans htok.symm)
      exact hx.2 (congrArg SessionRow.userId he)

/-- Witness for C1 on a concrete two-row store: the live token validates to
its owner, the same row fails once its expiry has passed, and after
deleting the owner's row the token fails even at an early validation
time. -/
theorem validate_session_authoritative_witness :
    TaskModel.validate_session
      [⟨"s1", "u1", "tok1", 10⟩, ⟨"s2", "u2", "tok2", 5⟩] "tok1" 3
      = some "u1" ∧
    TaskModel.validate_session
      [⟨"s1", "u1", "tok1", 10⟩, ⟨"s2", "u2", "tok2", 5⟩] "tok1" 10
      = none ∧
    TaskModel.validate_session
      (TaskModel.delete_session
        [⟨"s1", "u1", "tok1", 10⟩, ⟨"s2", "u2", "tok2", 5⟩] "u1").1
      "tok1" 3 = none := by
  have hU : TokensUnique [⟨"s1", "u1", "tok1", 10⟩, ⟨"s2", "u2", "tok2", 5⟩] := by
    unfold TokensUnique
    simp
  refine ⟨?_, ?_, ?_⟩
  · exact ((validate_session_authoritative _ "tok1" 3 hU).1 "u1").mpr
      ⟨⟨"s1", "u1", "tok1", 10⟩, by simp, rfl, by decide, rfl⟩
  · exact (validate_session_authoritative _ "tok1" 10 hU).2.1
      ⟨"s1", "u1", "tok1", 10⟩ (by simp) rfl (by decide)
  · exact (validate_session_authoritative _ "tok1" 3 hU).2.2
      ⟨"s1", "u1", "tok1", 10⟩ (by simp) rfl 3

/-- C2: after `create_session` for a user, the store holds exactly one
session row for that user, namely the new one (delete-then-insert); any
token that previously belonged only to that user and differs from the newly
minted token (the jwt embeds the fresh session uuid) subsequently fails
`validate_session`; and the at-most-one-session-per-user bound is preserved
by the operation. -/
theorem create_session_single_session (sessions : List SessionRow)
    (uid sid tok : String) (expiry : Nat) :
    ((TaskModel.create_session sessions uid sid tok expiry).1.filter
        (fun r : SessionRow => r.userId == uid)
      = ([⟨sid, uid, tok, expiry⟩] : List SessionRow)) ∧
    (∀ oldTok : String, oldTok ≠ tok →
      (∀ r ∈ sessions, r.sessionToken = oldTok → r.userId = uid) →
      ∀ now, TaskModel.validate_session
        (TaskModel.create_session sessions uid sid tok expiry).1 oldTok now
        = none) ∧
    (AtMostOneSessionPerUser sessions →
      AtMostOneSessionPerUser
        (TaskModel.create_session sessions uid sid tok expiry).1) := by
  refine ⟨?_, ?_, ?_⟩
  · unfold TaskModel.create_session
    rw [List.filter_append, List.filter_filter]
    simp
  · intro oldTok hne hold now
    unfold TaskModel.validate_session TaskModel.create_session
    rw [List.find?_eq_none.mpr]
    · rfl
    · intro x hx hp
      simp only [Bool.and_eq_true, beq_iff_eq, decide_eq_true_eq] at hp
      rcases List.mem_append.mp hx with hx1 | hx2
      · rcases List.mem_filter.mp hx1 with ⟨hmem, hflt⟩
        simp only [Bool.not_eq_eq_eq_not, Bool.not_true, beq_eq_false_iff_ne,
          ne_eq] at hflt
        exact hflt (hold x hmem hp.1)
      · simp only [List.mem_singleton] at hx2
        rw [hx2] at hp
        exact hne hp.1.symm
  · intro hbound u
    unfold TaskModel.create_session
    rw [List.countP_append, List.countP_filter]
    by_cases hu : uid = u
    · subst hu
      have h0 : sessions.countP
          (fun a => (a.userId == uid) && !(a.userId == uid)) = 0 := by
        rw [List.countP_eq_zero]
        intro a ha
        simp
      rw [h0]
      have h1 : List.countP (fun r : SessionRow => r.userId == uid)
          ([⟨sid, uid, tok, expiry⟩] : List SessionRow) ≤ 1 := by
        simp [List.countP_cons]
      omega
    · have hle : sessions.countP
          (fun a => (a.userId == u) && !(a.userId == uid)) ≤
          sessions.countP (fun a => a.userId == u) :=
        List.countP_mono_left (fun x _ h => by
          simp only [Bool.and_eq_true] at h
          exact h.1)
      have h1 : List.countP (fun r : SessionRow => r.userId == u)
          ([⟨sid, uid, tok, expiry⟩] : List SessionRow) = 0 := by
        simp [List.countP_cons, hu]
      have h2 := hbound u
      omega

/-- Witness for C2 on a concrete store holding one old session for the
user: the store after `create_session` holds exactly the new row for the
user, the old token no longer validates, and the per-user bound still
holds at the user. -/
theorem create_session_single_session_witness :
    ((TaskModel.create_session [⟨"s0", "u1", "tokOld", 99⟩] "u1" "s1"
        "tokNew" 50).1.filter (fun r : SessionRow => r.userId == "u1")
      = ([⟨"s1", "u1", "tokNew", 50⟩] : List SessionRow)) ∧
    (TaskModel.validate_session
      (TaskModel.create_session [⟨"s0", "u1", "tokOld", 99⟩] "u1" "s1"
        "tokNew" 50).1 "tokOld" 0 = none) ∧
    ((TaskModel.create_session [⟨"s0", "u1", "tokOld", 99⟩] "u1" "s1"
        "tokNew" 50).1.countP (fun r : SessionRow => r.userId == "u1") ≤ 1) := by
  have h := create_session_single_session [⟨"s0", "u1", "tokOld", 99⟩]
    "u1" "s1" "tokNew" 50
  refine ⟨h.1, h.2.1 "tokOld" (by decide) ?_ 0, ?_⟩
  · intro r hr htok
    simp only [List.mem_singleton] at hr
    rw [hr]
  · exact h.2.2 (fun u => le_trans (List.countP_le_length _) (by simp)) "u1"

/-- Splitting a list by a Boolean predicate: the rows kept by the negated
filter and the count of rows matching the predicate add up to the whole
length. -/
theorem length_filter_not_add_countP {α : Type} (p : α → Bool) (l : List α) :
    (l.filter (fun r => !(p r))).length + l.countP p = l.length := by
  induction l with
  | nil => rfl
  | cons a l ih =>
    by_cases ha : p a <;> simp [List.filter_cons, List.countP_cons, ha] <;> omega

/-- C7: `cleanup_expired_sessions` keeps a stored row exactly when its
expiry is strictly in the future (so it deletes exactly the rows with
expiry at or before `now` and removes no future row), returns exactly the
number of rows it deleted, and a second run on the result at the same
instant deletes nothing and returns 0. -/
theorem cleanup_expired_exact (sessions : List SessionRow) (now : Nat) :
    (∀ r ∈ sessions,
      (r ∈ (TaskModel.cleanup_expired_sessions sessions now).1 ↔
        now < r.expiresAt)) ∧
    (∀ r ∈ (TaskModel.cleanup_expired_sessions sessions now).1,
      r ∈ sessions) ∧
    ((TaskModel.cleanup_expired_sessions sessions now).1.length +
      (TaskModel.cleanup_expired_sessions sessions now).2
      = sessions.length) ∧
    ((TaskModel.cleanup_expired_sessions
        (TaskModel.cleanup_expired_sessions sessions now).1 now).2 = 0) := by
  refine ⟨?_, ?_, ?_, ?_⟩
  · intro r hr
    unfold TaskModel.cleanup_expired_sessions
    simp [List.mem_filter, hr]
  · intro r hr
    unfold TaskModel.cleanup_expired_sessions at hr
    exact (List.mem_filter.mp hr).1
  · unfold TaskModel.cleanup_expired_sessions
    exact length_filter_not_add_countP
      (fun r => decide (r.expiresAt ≤ now)) sessions
  · unfold TaskModel.cleanup_expired_sessions
    rw [List.countP_eq_zero]
    intro r hr
    have := (List.mem_filter.mp hr).2
    simp at this ⊢
    omega

/-- Witness for C7 on a concrete store with one expired and one live row:
the live row is kept, the expired one removed, the count is 1, and the
second run returns 0. -/
theorem cleanup_expired_exact_witness :
    (⟨"s1", "u1", "tok1", 20⟩ : SessionRow) ∈
      (TaskModel.cleanup_expired_sessions
        [⟨"s1", "u1", "tok1", 20⟩, ⟨"s2", "u2", "tok2", 7⟩] 7).1 ∧
    ¬ ((⟨"s2", "u2", "tok2", 7⟩ : SessionRow) ∈
      (TaskModel.cleanup_expired_sessions
        [⟨"s1", "u1", "tok1", 20⟩, ⟨"s2", "u2", "tok2", 7⟩] 7).1) ∧
    (TaskModel.cleanup_expired_sessions
        [⟨"s1", "u1", "tok1", 20⟩, ⟨"s2", "u2", "tok2", 7⟩] 7).1.length +
      (TaskModel.cleanup_expired_sessions
        [⟨"s1", "u1", "tok1", 20⟩, ⟨"s2", "u2", "tok2", 7⟩] 7).2 = 2 ∧
    (TaskModel.cleanup_expired_sessions
      (TaskModel.cleanup_expired_sessions
        [⟨"s1", "u1", "tok1", 20⟩, ⟨"s2", "u2", "tok2", 7⟩] 7).1 7).2 = 0 := by
  have h := cleanup_expired_exact
    [⟨"s1", "u1", "tok1", 20⟩, ⟨"s2", "u2", "tok2", 7⟩] 7
  refine ⟨(h.1 ⟨"s1", "u1", "tok1", 20⟩ (by simp)).mpr (by decide), ?_, ?_, ?_⟩
  · intro hmem
    have := (h.1 ⟨"s2", "u2", "tok2", 7⟩ (by simp)).mp hmem
    exact absurd this (by decide)
  · exact h.2.2.1
  · exact h.2.2.2

/-- C6: the `GET /session/validate` endpoint never produces an error
response: for every token and store state it is a total function returning
HTTP 200, with `valid = false` exactly when `TaskModel.validate_session`
yields the normal invalid result `none` (unknown or expired token), and
`valid = true` with the user id otherwise. -/
theorem session_validate_never_errors (db : DB) (tok : String) (now : Nat) :
    (Main.validate_session db tok now).status = 200 ∧
    ((Main.validate_session db tok now).valid = false ↔
      TaskModel.validate_session db.sessions tok now = none) ∧
    ((Main.validate_session db tok now).valid = true ↔
      ∃ u, TaskModel.validate_session db.sessions tok now = some u) := by
  unfold Main.validate_session
  cases h : TaskModel.validate_session db.sessions tok now <;> simp

/-- C8: `GET /tasks` returns a permutation of the stored tasks in which
every task's `time` field is greater than or equal to the `time` field of
every task occurring after it (sorted by `time` descending); nothing more
is guaranteed among ties. -/
theorem get_all_tasks_sorted_desc (db : DB) :
    (Main.get_all_tasks db).Perm db.tasks ∧
    List.Pairwise (fun a b : TaskRow => b.time ≤ a.time)
      (Main.get_all_tasks db) := by
  constructor
  · exact List.perm_insertionSort _ _
  · haveI : IsTotal TaskRow (fun a b : TaskRow => b.time ≤ a.time) :=
      ⟨fun a b => le_total b.time a.time⟩
    haveI : IsTrans TaskRow (fun a b : TaskRow => b.time ≤ a.time) :=
      ⟨fun a b c h1 h2 => le_trans h2 h1⟩
    exact List.sorted_insertionSort _ _

/-- Owner case of the `PUT /task` handler: when the task exists and is
owned by the authenticated user, the handler commits the updated table and
answers `ok200` with the re-read row. -/
theorem update_task_owner_case (db : DB) (req : TaskUpdate) (u : String)
    (now : String) (e : TaskRow)
    (he : TaskModel.get_task_by_id db.tasks req.taskId = some e)
    (hown : e.userId = u) :
    ∃ t2 : TaskRow,
      Main.update_task db req u now
        = ({ db with tasks := (TaskModel.update_task db.tasks req.taskId u
              req.taskName req.category req.time req.status now).1 },
           UpdateOutcome.ok200 t2) := by
  have hpred := List.find?_some he
  have hmem := List.mem_of_find?_eq_some he
  have hbeq : (e.userId == u) = true := by simp [hown]
  have hany : db.tasks.any (fun r => r.taskId == req.taskId) = true :=
    List.any_eq_true.mpr ⟨e, hmem, hpred⟩
  have hfind : (TaskModel.get_task_by_id
      (TaskModel.update_task db.tasks req.taskId u req.taskName req.category
        req.time req.status now).1 req.taskId).isSome := by
    unfold TaskModel.get_task_by_id TaskModel.update_task
    apply List.find?_isSome.mpr
    refine ⟨_, List.mem_map_of_mem _ hmem, ?_⟩
    rw [hpred]
    simpa using hpred
  cases hf2 : TaskModel.get_task_by_id
      (TaskModel.update_task db.tasks req.taskId u req.taskName req.category
        req.time req.status now).1 req.taskId with
  | none => rw [hf2] at hfind; simp at hfind
  | some t2 =>
    refine ⟨t2, ?_⟩
    unfold Main.update_task
    rw [he]
    simp only [hbeq, Bool.not_true, Bool.false_eq_true, if_false]
    unfold TaskModel.update_task at hf2 ⊢
    simp only [hany, if_true]
    rw [hf2]

/-- Owner case of the `DELETE /task/{task_id}` handler: when the task
exists and is owned by the authenticated user, the handler commits the
filtered table and answers `ok200`. -/
theorem delete_task_owner_case (db : DB) (tid : Nat) (u : String)
    (e : TaskRow)
    (he : TaskModel.get_task_by_id db.tasks tid = some e)
    (hown : e.userId = u) :
    Main.delete_task db tid u
      = ({ db with tasks := (TaskModel.delete_task db.tasks tid).1 },
         DeleteOutcome.ok200 s!"Task with ID {tid} deleted successfully") := by
  have hpred := List.find?_some he
  have hmem := List.mem_of_find?_eq_some he
  have hbeq : (e.userId == u) = true := by simp [hown]
  have hany : db.tasks.any (fun r => r.taskId == tid) = true :=
    List.any_eq_true.mpr ⟨e, hmem, hpred⟩
  unfold Main.delete_task
  rw [he]
  simp only [hbeq, Bool.not_true, Bool.false_eq_true, if_false]
  unfold TaskModel.delete_task
  simp only [hany, if_true]

/-- C5: for every authenticated `PUT /task` or `DELETE /task/{task_id}`
request, a missing task id yields `notFound404` with the store untouched; a
task owned by a different user yields `forbidden403`, distinct from
`notFound404`, with the store untouched; and a task owned by the
authenticated identity makes the operation succeed with `ok200`. -/
theorem task_mutation_ownership (db : DB) (req : TaskUpdate) (tid : Nat)
    (u : String) (now : String) :
    ((TaskModel.get_task_by_id db.tasks req.taskId = none →
        Main.update_task db req u now = (db, UpdateOutcome.notFound404)) ∧
     (TaskModel.get_task_by_id db.tasks tid = none →
        Main.delete_task db tid u = (db, DeleteOutcome.notFound404))) ∧
    ((∀ e : TaskRow, TaskModel.get_task_by_id db.tasks req.taskId = some e →
        e.userId ≠ u →
        Main.update_task db req u now = (db, UpdateOutcome.forbidden403)) ∧
     (∀ e : TaskRow, TaskModel.get_task_by_id db.tasks tid = some e →
        e.userId ≠ u →
        Main.delete_task db tid u = (db, DeleteOutcome.forbidden403))) ∧
    ((∀ e : TaskRow, TaskModel.get_task_by_id db.tasks req.taskId = some e →
        e.userId = u →
        ∃ t2 : TaskRow,
          (Main.update_task db req u now).2 = UpdateOutcome.ok200 t2) ∧
     (∀ e : TaskRow, TaskModel.get_task_by_id db.tasks tid = some e →
        e.userId = u →
        ∃ msg : String,
          (Main.delete_task db tid u).2 = DeleteOutcome.ok200 msg)) := by
  refine ⟨⟨?_, ?_⟩, ⟨?_, ?_⟩, ⟨?_, ?_⟩⟩
  · intro hnone
    unfold Main.update_task
    rw [hnone]
  · intro hnone
    unfold Main.delete_task
    rw [hnone]
  · intro e he hne
    unfold Main.update_task
    rw [he]
    have hbeq : (e.userId == u) = false := by
      simp only [beq_eq_false_iff_ne, ne_eq]
      exact hne
    simp [hbeq]
  · intro e he hne
    unfold Main.delete_task
    rw [he]
    have hbeq : (e.userId == u) = false := by
      simp only [beq_eq_false_iff_ne, ne_eq]
      exact hne
    simp [hbeq]
  · intro e he hown
    obtain ⟨t2, ht⟩ := update_task_owner_case db req u now e he hown
    exact ⟨t2, by rw [ht]⟩
  · intro e he hown
    rw [delete_task_owner_case db tid u e he hown]
    exact ⟨s!"Task with ID {tid} deleted successfully", rfl⟩

/-- Witness for C5 on a one-task store owned by user `A`: id 2 is
`notFound404`, user `B` gets `forbidden403` on id 1 (store untouched), and
user `A` succeeds on id 1 for both update and delete. -/
theorem task_mutation_ownership_witness :
    (Main.update_task ⟨[⟨1, "A", "n", "c", "t", "pending", "ts"⟩], [], []⟩
        ⟨2, "n2", "c2", "t2", "done"⟩ "B" "ts2"
      = (⟨[⟨1, "A", "n", "c", "t", "pending", "ts"⟩], [], []⟩,
         UpdateOutcome.notFound404)) ∧
    (Main.update_task ⟨[⟨1, "A", "n", "c", "t", "pending", "ts"⟩], [], []⟩
        ⟨1, "n2", "c2", "t2", "done"⟩ "B" "ts2"
      = (⟨[⟨1, "A", "n", "c", "t", "pending", "ts"⟩], [], []⟩,
         UpdateOutcome.forbidden403)) ∧
    (Main.delete_task ⟨[⟨1, "A", "n", "c", "t", "pending", "ts"⟩], [], []⟩
        1 "B"
      = (⟨[⟨1, "A", "n", "c", "t", "pending", "ts"⟩], [], []⟩,
         DeleteOutcome.forbidden403)) ∧
    (∃ t2 : TaskRow,
      (Main.update_task ⟨[⟨1, "A", "n", "c", "t", "pending", "ts"⟩], [], []⟩
        ⟨1, "n2", "c2", "t2", "done"⟩ "A" "ts2").2
        = UpdateOutcome.ok200 t2) ∧
    (∃ msg : String,
      (Main.delete_task ⟨[⟨1, "A", "n", "c", "t", "pending", "ts"⟩], [], []⟩
        1 "A").2 = DeleteOutcome.ok200 msg) := by
  have h := task_mutation_ownership
    ⟨[⟨1, "A", "n", "c", "t", "pending", "ts"⟩], [], []⟩
    ⟨1, "n2", "c2", "t2", "done"⟩ 1 "B" "ts2"
  have h2 := task_mutation_ownership
    ⟨[⟨1, "A", "n", "c", "t", "pending", "ts"⟩], [], []⟩
    ⟨1, "n2", "c2", "t2", "done"⟩ 1 "A" "ts2"
  have h3 := task_mutation_ownership
    ⟨[⟨1, "A", "n", "c", "t", "pending", "ts"⟩], [], []⟩
    ⟨2, "n2", "c2", "t2", "done"⟩ 2 "B" "ts2"
  refine ⟨h3.1.1 rfl, ?_, ?_, ?_, ?_⟩
  · exact h.2.1.1 ⟨1, "A", "n", "c", "t", "pending", "ts"⟩ rfl (by decide)
  · exact h.2.1.2 ⟨1, "A", "n", "c", "t", "pending", "ts"⟩ rfl (by decide)
  · exact h2.2.2.1 ⟨1, "A", "n", "c", "t", "pending", "ts"⟩ rfl rfl
  · exact h2.2.2.2 ⟨1, "A", "n", "c", "t", "pending", "ts"⟩ rfl rfl

/-- C9: a successful `PUT /task` (task present and owned by the caller)
answers `ok200`, keeps the table length, leaves every row whose id differs
from the requested id exactly in place, and the stored owning-user-id of
the updated task equals its owner before the operation (the handler writes
the authenticated id, which the ownership check forces to equal the stored
owner). -/
theorem update_preserves_owner_and_frame (db : DB) (req : TaskUpdate)
    (u : String) (now : String) (e : TaskRow)
    (he : TaskModel.get_task_by_id db.tasks req.taskId = some e)
    (hown : e.userId = u) :
    (∃ t2 : TaskRow,
      (Main.update_task db req u now).2 = UpdateOutcome.ok200 t2) ∧
    (Main.update_task db req u now).1.tasks.length = db.tasks.length ∧
    (∀ (i : Nat) (h1 : i < db.tasks.length)
        (h2 : i < (Main.update_task db req u now).1.tasks.length),
      (db.tasks.get ⟨i, h1⟩).taskId ≠ req.taskId →
      (Main.update_task db req u now).1.tasks.get ⟨i, h2⟩
        = db.tasks.get ⟨i, h1⟩) ∧
    (∀ r ∈ (Main.update_task db req u now).1.tasks,
      r.taskId = req.taskId → r.userId = e.userId) := by
  obtain ⟨t2, ht⟩ := update_task_owner_case db req u now e he hown
  rw [ht]
  unfold TaskModel.update_task
  refine ⟨⟨t2, rfl⟩, by simp, ?_, ?_⟩
  · intro i h1 h2 hne
    simp only [List.get_eq_getElem] at hne ⊢
    simp only [List.getElem_map]
    have hb : (db.tasks[i].taskId == req.taskId) = false := by
      simpa using hne
    simp [hb]
  · intro r hr hid
    obtain ⟨r0, hr0, rfl⟩ := List.mem_map.mp hr
    by_cases hcase : (r0.taskId == req.taskId) = true
    · rw [if_pos hcase] at hid ⊢
      exact hown.symm
    · rw [if_neg hcase] at hid ⊢
      exact absurd (by simp [hid]) hcase

/-- Witness for C9 on a two-task store owned by user `A`: updating task 1
as `A` succeeds and keeps both rows accounted for. -/
theorem update_preserves_owner_and_frame_witness :
    (∃ t2 : TaskRow,
      (Main.update_task
        ⟨[⟨1, "A", "n", "c", "t", "pending", "ts"⟩,
          ⟨2, "A", "m", "d", "s", "pending", "t0"⟩], [], []⟩
        ⟨1, "n2", "c2", "t2", "done"⟩ "A" "ts2").2
        = UpdateOutcome.ok200 t2) ∧
    (Main.update_task
        ⟨[⟨1, "A", "n", "c", "t", "pending", "ts"⟩,
          ⟨2, "A", "m", "d", "s", "pending", "t0"⟩], [], []⟩
        ⟨1, "n2", "c2", "t2", "done"⟩ "A" "ts2").1.tasks.length = 2 := by
  have h := update_preserves_owner_and_frame
    ⟨[⟨1, "A", "n", "c", "t", "pending", "ts"⟩,
      ⟨2, "A", "m", "d", "s", "pending", "t0"⟩], [], []⟩
    ⟨1, "n2", "c2", "t2", "done"⟩ "A" "ts2"
    ⟨1, "A", "n", "c", "t", "pending", "ts"⟩ rfl rfl
  exact ⟨h.1, h.2.1.trans rfl⟩

/-- The `UserRegisterResponse` construction of the register handler misses
required fields (`email`, `relationship`, `gender`, `nickname`,
`birthday`), so pydantic validation fails. -/
theorem registerResponseMissingFields :
    pydanticConstructOk userRegisterResponseFields registerResponseKwargs
      = false := by decide

/-- The `UserLoginResponse` construction of the login handler misses
required fields (`email`, `relationship`, `gender`, `nickname`,
`birthday`), so pydantic validation fails. -/
theorem loginResponseMissingFields :
    pydanticConstructOk userLoginResponseFields loginResponseKwargs
      = false := by decide

/-- C3 (code bug): registering a fresh email does NOT answer 201 — the
member row and the session are committed, but the handler then fails to
construct its own declared `UserRegisterResponse` (five required fields are
never passed), and the resulting `ValidationError` is mapped to a 500.
Registering a duplicate email answers 409 and leaves the store untouched
(no second row). -/
theorem register_user_bug (db : DB) (user : UserRegister)
    (uid sid tok : String) (expiry : Nat) :
    ((∀ m ∈ db.members, m.userId ≠ uid ∧ m.email ≠ user.email) →
      (Main.register_user db user uid sid tok expiry).2
        = RegisterOutcome.serverError500 ∧
      (⟨uid, user.email, user.relationship, user.nickname, user.gender,
        user.birthday, user.password⟩ : Member)
        ∈ (Main.register_user db user uid sid tok expiry).1.members ∧
      (⟨sid, uid, tok, expiry⟩ : SessionRow)
        ∈ (Main.register_user db user uid sid tok expiry).1.sessions) ∧
    ((∃ m ∈ db.members, m.email = user.email) →
      Main.register_user db user uid sid tok expiry
        = (db, RegisterOutcome.conflict409)) := by
  constructor
  · intro hfresh
    have hany : db.members.any
        (fun x => x.userId == uid || x.email == user.email) = false := by
      rw [List.any_eq_false]
      intro m hm
      have := hfresh m hm
      simp [this.1, this.2]
    unfold Main.register_user TaskModel.add_new_member
    rw [hany]
    simp only [Bool.false_eq_true, if_false, registerResponseMissingFields]
    refine ⟨trivial, ?_, ?_⟩
    · exact List.mem_append.mpr (Or.inr (by simp))
    · unfold TaskModel.create_session
      exact List.mem_append.mpr (Or.inr (by simp))
  · rintro ⟨m, hm, he⟩
    have hany : db.members.any
        (fun x => x.userId == uid || x.email == user.email) = true :=
      List.any_eq_true.mpr ⟨m, hm, by simp [he]⟩
    unfold Main.register_user TaskModel.add_new_member
    rw [hany]
    simp only [if_true]
    rw [if_pos (by decide)]

/-- Witness for C3: on an empty store a valid fresh registration yields the
500 outcome with the member row committed; with the email already present
the handler answers 409 and the store is unchanged. -/
theorem register_user_bug_witness :
    (Main.register_user ⟨[], [], []⟩
      ⟨"a@x.com", "friend", "secret1", "m", "nick", "1990"⟩
      "u1" "s1" "tok1" 99).2 = RegisterOutcome.serverError500 ∧
    (⟨"u1", "a@x.com", "friend", "nick", "m", "1990", "secret1"⟩ : Member)
      ∈ (Main.register_user ⟨[], [], []⟩
        ⟨"a@x.com", "friend", "secret1", "m", "nick", "1990"⟩
        "u1" "s1" "tok1" 99).1.members ∧
    Main.register_user ⟨[], [⟨"u0", "a@x.com", "f", "n", "m", "b", "p"⟩], []⟩
      ⟨"a@x.com", "friend", "secret1", "m", "nick", "1990"⟩
      "u1" "s1" "tok1" 99
      = (⟨[], [⟨"u0", "a@x.com", "f", "n", "m", "b", "p"⟩], []⟩,
         RegisterOutcome.conflict409) := by
  have hf := (register_user_bug ⟨[], [], []⟩
    ⟨"a@x.com", "friend", "secret1", "m", "nick", "1990"⟩
    "u1" "s1" "tok1" 99).1 (by intro m hm; cases hm)
  have hd := (register_user_bug
    ⟨[], [⟨"u0", "a@x.com", "f", "n", "m", "b", "p"⟩], []⟩
    ⟨"a@x.com", "friend", "secret1", "m", "nick", "1990"⟩
    "u1" "s1" "tok1" 99).2
    ⟨⟨"u0", "a@x.com", "f", "n", "m", "b", "p"⟩, by simp, rfl⟩
  exact ⟨hf.1, hf.2.1, hd⟩

/-- C4 (code bug): logging in with a stored email/password pair does NOT
answer 200 — the fresh session is committed, but the handler then fails to
construct its own declared `UserLoginResponse` (five required fields are
never passed), and the resulting `ValidationError` is mapped to a 500.
With credentials matching no member the handler answers 401 and creates no
session. -/
theorem login_user_bug (db : DB) (email pwd sid tok : String)
    (expiry : Nat) :
    ((∃ m ∈ db.members, m.email = email ∧ m.password = pwd) →
      ∃ uid : String, TaskModel.getUser db.members email pwd = some uid ∧
        (Main.login_user db email pwd sid tok expiry).2
          = LoginOutcome.serverError500 ∧
        (⟨sid, uid, tok, expiry⟩ : SessionRow)
          ∈ (Main.login_user db email pwd sid tok expiry).1.sessions) ∧
    (TaskModel.getUser db.members email pwd = none →
      Main.login_user db email pwd sid tok expiry
        = (db, LoginOutcome.unauthorized401)) := by
  constructor
  · rintro ⟨m, hm, he, hp⟩
    have hsome : (db.members.find? fun x =>
        x.email == email && x.password == pwd).isSome :=
      List.find?_isSome.mpr ⟨m, hm, by simp [he, hp]⟩
    cases hg : TaskModel.getUser db.members email pwd with
    | none =>
      unfold TaskModel.getUser at hg
      cases hf : db.members.find? fun x =>
          x.email == email && x.password == pwd with
      | none => rw [hf] at hsome; simp at hsome
      | some m0 => rw [hf] at hg; simp at hg
    | some uid =>
      refine ⟨uid, rfl, ?_, ?_⟩
      · unfold Main.login_user
        rw [hg]
        simp [loginResponseMissingFields]
      · unfold Main.login_user
        rw [hg]
        simp only [loginResponseMissingFields, Bool.false_eq_true, if_false]
        unfold TaskModel.create_session
        exact List.mem_append.mpr (Or.inr (by simp))
  · intro hnone
    unfold Main.login_user
    rw [hnone]

/-- Witness for C4: with one stored member, the correct credentials yield
the 500 outcome while the session row is committed; a wrong password yields
401 with the store unchanged. -/
theorem login_user_bug_witness :
    (∃ uid : String,
      TaskModel.getUser [⟨"u0", "a@x.com", "f", "n", "m", "b", "secret1"⟩]
        "a@x.com" "secret1" = some uid ∧
      (Main.login_user ⟨[], [⟨"u0", "a@x.com", "f", "n", "m", "b", "secret1"⟩], []⟩
        "a@x.com" "secret1" "s1" "tok1" 99).2
        = LoginOutcome.serverError500 ∧
      (⟨"s1", uid, "tok1", 99⟩ : SessionRow)
        ∈ (Main.login_user ⟨[], [⟨"u0", "a@x.com", "f", "n", "m", "b", "secret1"⟩], []⟩
          "a@x.com" "secret1" "s1" "tok1" 99).1.sessions) ∧
    Main.login_user ⟨[], [⟨"u0", "a@x.com", "f", "n", "m", "b", "secret1"⟩], []⟩
      "a@x.com" "wrong" "s1" "tok1" 99
      = (⟨[], [⟨"u0", "a@x.com", "f", "n", "m", "b", "secret1"⟩], []⟩,
         LoginOutcome.unauthorized401) := by
  have h := login_user_bug
    ⟨[], [⟨"u0", "a@x.com", "f", "n", "m", "b", "secret1"⟩], []⟩
    "a@x.com" "secret1" "s1" "tok1" 99
  have h2 := login_user_bug
    ⟨[], [⟨"u0", "a@x.com", "f", "n", "m", "b", "secret1"⟩], []⟩
    "a@x.com" "wrong" "s1" "tok1" 99
  exact ⟨h.1 ⟨⟨"u0", "a@x.com", "f", "n", "m", "b", "secret1"⟩,
    by simp, rfl, rfl⟩, h2.2 rfl⟩

/-- A list is a `isPrefixOf`-prefix of itself followed by anything. -/
theorem isPrefixOf_append_self (p s : List Char) :
    p.isPrefixOf (p ++ s) = true := by
  induction p with
  | nil => simp [List.isPrefixOf]
  | cons a as ih => simp [List.isPrefixOf, ih]

/-- When the pattern occurs nowhere in the input, `str.replace` is the
identity. -/
theorem replaceAll_of_not_contains (pat rep s : List Char)
    (h : containsSub pat s = false) : replaceAll pat rep s = s := by
  induction s with
  | nil => simp [replaceAll]
  | cons c rest ih =>
    unfold containsSub at h
    simp only [Bool.or_eq_false_iff] at h
    unfold replaceAll
    rw [dif_neg (fun hc => by rw [h.1] at hc; simp at hc)]
    rw [ih h.2]

/-- `str.replace` on an input starting with the (nonempty) pattern removes
that leading occurrence and continues on the remainder. -/
theorem replaceAll_marker_head (pat rep t : List Char) (hp : pat ≠ []) :
    replaceAll pat rep (pat ++ t) = rep ++ replaceAll pat rep t := by
  cases pat with
  | nil => exact absurd rfl hp
  | cons p ps =>
    have h2 : (p :: ps) ++ t = p :: (ps ++ t) := rfl
    rw [h2]
    conv_lhs => unfold replaceAll
    rw [dif_pos ⟨hp, show (p :: ps).isPrefixOf (p :: (ps ++ t)) = true from
      isPrefixOf_append_self (p :: ps) t⟩]
    rw [show List.drop (p :: ps).length (p :: (ps ++ t)) = t from
      List.drop_left (p :: ps) t]

/-- Deleting pattern occurrences never lengthens the input. -/
theorem length_replaceAll_le (pat : List Char) (s : List Char) :
    (replaceAll pat [] s).length ≤ s.length := by
  induction s using replaceAll.induct pat [] with
  | case1 => simp [replaceAll]
  | case2 c rest h ih =>
    unfold replaceAll
    rw [dif_pos h]
    simp only [List.nil_append, List.length_cons]
    have hd : (List.drop pat.length (c :: rest)).length ≤ rest.length + 1 := by
      simp [List.length_drop]
    omega
  | case3 c rest h ih =>
    unfold replaceAll
    rw [dif_neg h]
    simp only [List.length_cons]
    omega

/-- Deleting the occurrences of a nonempty pattern that does occur strictly
shortens the input. -/
theorem length_replaceAll_lt (pat : List Char) (s : List Char)
    (hp : pat ≠ []) (hc : containsSub pat s = true) :
    (replaceAll pat [] s).length < s.length := by
  induction s using replaceAll.induct pat [] with
  | case1 =>
    unfold containsSub at hc
    simp [List.isEmpty_iff] at hc
    exact absurd hc hp
  | case2 c rest h ih =>
    unfold replaceAll
    rw [dif_pos h]
    have hple : 0 < pat.length := List.length_pos.mpr hp
    have h1 := length_replaceAll_le pat (List.drop pat.length (c :: rest))
    simp only [List.nil_append, List.length_cons, List.length_drop] at h1 ⊢
    omega
  | case3 c rest h ih =>
    unfold replaceAll
    rw [dif_neg h]
    unfold containsSub at hc
    simp only [Bool.or_eq_true] at hc
    rcases hc with hc1 | hc2
    · exact absurd ⟨hp, hc1⟩ h
    · have := ih hc2
      simp only [List.length_cons]
      omega

/-- C10: `get_current_user` derives the token with
`authorization.replace("Bearer ", "")`, deleting EVERY occurrence of the
marker, not only the leading scheme: for a header `Bearer t` whose token
`t` does not itself contain the marker the looked-up token is exactly `t`,
whereas a stored token containing the marker is altered before lookup, so
presenting it with the standard scheme can never validate — the middleware
answers 401 even though the stored row holds that very token with an
unelapsed expiry. -/
theorem get_current_user_strips_every_marker (t : List Char) :
    (containsSub bearerMarker t = false →
      extractToken (bearerMarker ++ t) = t) ∧
    (containsSub bearerMarker t = true →
      extractToken (bearerMarker ++ t) ≠ t ∧
      ∀ (sid uid : String) (expiry now : Nat),
        Main.get_current_user [⟨sid, uid, String.mk t, expiry⟩]
          (some (bearerMarker ++ t)) now = AuthResult.unauthorized401) := by
  have hpne : bearerMarker ≠ [] := by decide
  constructor
  · intro hnc
    unfold extractToken
    rw [replaceAll_marker_head _ _ _ hpne, List.nil_append,
      replaceAll_of_not_contains _ _ _ hnc]
  · intro hc
    have hlt : (replaceAll bearerMarker [] t).length < t.length :=
      length_replaceAll_lt bearerMarker t hpne hc
    have hne : extractToken (bearerMarker ++ t) ≠ t := by
      unfold extractToken
      rw [replaceAll_marker_head _ _ _ hpne, List.nil_append]
      intro he
      rw [he] at hlt
      omega
    refine ⟨hne, ?_⟩
    intro sid uid expiry now
    unfold Main.get_current_user
    have hpre : bearerMarker.isPrefixOf (bearerMarker ++ t) = true :=
      isPrefixOf_append_self _ _
    simp only [hpre, Bool.not_true, Bool.false_eq_true, if_false]
    have hmkne : (String.mk t
        == String.mk (extractToken (bearerMarker ++ t))) = false := by
      rw [beq_eq_false_iff_ne]
      intro he
      injection he with hd
      exact hne hd.symm
    have hv : TaskModel.validate_session [⟨sid, uid, String.mk t, expiry⟩]
        (String.mk (extractToken (bearerMarker ++ t))) now = none := by
      unfold TaskModel.validate_session
      rw [List.find?_eq_none.mpr]
      · rfl
      · intro x hx hp
        simp only [List.mem_singleton] at hx
        rw [hx] at hp
        simp only [Bool.and_eq_true] at hp
        rw [hmkne] at hp
        exact absurd hp.1 (by simp)
    rw [hv]

/-- Witness for C10: a plain token round-trips through the header exactly,
while the token `aBearer b` (containing the marker) is mangled by the
middleware and fails to validate against its own stored row. -/
theorem get_current_user_strips_every_marker_witness :
    extractToken (bearerMarker ++ "tok1".toList) = "tok1".toList ∧
    extractToken (bearerMarker ++ "aBearer b".toList) ≠ "aBearer b".toList ∧
    Main.get_current_user
      [⟨"s1", "u1", String.mk "aBearer b".toList, 99⟩]
      (some (bearerMarker ++ "aBearer b".toList)) 0
      = AuthResult.unauthorized401 := by
  have h1 := (get_current_user_strips_every_marker "tok1".toList).1
    (by decide)
  have h2 := (get_current_user_strips_every_marker "aBearer b".toList).2
    (by decide)
  exact ⟨h1, h2.1, h2.2 "s1" "u1" 99 0⟩
